import Mathlib

/-!
Verification of the football-fixtures pipeline (`src/main.py`).

The script fetches league fixture data from a JSON API for a static list of
six leagues, extracts a 4-field details record and one 7-field record per
match, broadcasts the details onto each match row, concatenates the rows in
league-list order, maps country codes to display names, splits the score
string into two columns, and finally exports the table together with an
independently generated hourly timestamp table.

The embedding below models Python values flowing through the pipeline as a
`Json` inductive, Python exceptions as `Except String`, and the network as
an oracle `Int → FetchOutcome` giving each league id either a transport
error (any `RequestException`, including the non-2xx case raised by
`raise_for_status`) or a parsed JSON body.
-/

namespace Fixtures

/-- A Python/JSON value as it flows through the script. -/
inductive Json where
  | null : Json
  | bool (b : Bool) : Json
  | num (n : Int) : Json
  | str (s : String) : Json
  | arr (items : List Json) : Json
  | obj (fields : List (String × Json)) : Json

/-- Python truthiness of a JSON value (`if details and matches:`). -/
def Json.truthy : Json → Bool
  | .null => false
  | .bool b => b
  | .num n => n != 0
  | .str s => s != ""
  | .arr items => !items.isEmpty
  | .obj fields => !fields.isEmpty

/-- Truthiness of an optional value (`None` is falsy). -/
def optTruthy : Option Json → Bool
  | none => false
  | some j => j.truthy

/-- Python subscript `d[k]` on a dict: `KeyError` when the key is absent,
`TypeError` when the value is not a dict. -/
def dictLookup (j : Json) (k : String) : Except String Json :=
  match j with
  | .obj fields =>
    match fields.lookup k with
    | some v => .ok v
    | none => .error ("KeyError: " ++ k)
  | _ => .error ("TypeError: not a dict, subscripted with " ++ k)

/-- Python `d.get(k)`: `None` when the key is absent; fails when the
receiver is not a dict (`AttributeError`). -/
def pyGet (j : Json) (k : String) : Except String (Option Json) :=
  match j with
  | .obj fields => .ok (fields.lookup k)
  | _ => .error ("AttributeError: receiver of .get is not a dict, key " ++ k)

/-- Python `d.get(k, default)`. -/
def pyGetD (j : Json) (k : String) (dflt : Json) : Except String Json :=
  match j with
  | .obj fields => .ok ((fields.lookup k).getD dflt)
  | _ => .error ("AttributeError: receiver of .get is not a dict, key " ++ k)

/-- Outcome of the HTTP GET for one league: either a `RequestException`
(transport failure or non-2xx status via `raise_for_status`) or a parsed
JSON body. -/
inductive FetchOutcome where
  | transportError (e : String) : FetchOutcome
  | success (body : Json) : FetchOutcome

/-- The message logged by `get_league_fixtures` on a `RequestException`. -/
def fetchErrorMsg (league_id : Int) (e : String) : String :=
  "An error occurred while fetching data for league ID " ++ toString league_id ++ ": " ++ e

/-- `get_league_fixtures` (src/main.py:13-40): returns the emitted log lines
and either the pair `(details, matches.allMatches)` from the body (a missing
key there raises and is not caught), or `(None, None)` after catching and
logging a `RequestException`. -/
def get_league_fixtures (league_id : Int) (resp : FetchOutcome) :
    List String × Except String (Option Json × Option Json) :=
  match resp with
  | .transportError e =>
    ([fetchErrorMsg league_id e], .ok (none, none))
  | .success body =>
    ([], do
      let details ← dictLookup body "details"
      let matchesObj ← dictLookup body "matches"
      let allMatches ← dictLookup matchesObj "allMatches"
      return (some details, some allMatches))

/-- The 4-field record built by `extract_details`. -/
structure LeagueDetails where
  country : Json
  name : Json
  selectedSeason : Json
  type : Json

/-- `extract_details` (src/main.py:43-58): plain subscripts, so a missing
required key raises. -/
def extract_details (details : Json) : Except String LeagueDetails := do
  let c ← dictLookup details "country"
  let n ← dictLookup details "name"
  let s ← dictLookup details "selectedSeason"
  let t ← dictLookup details "type"
  return { country := c, name := n, selectedSeason := s, type := t }

/-- The 7-field record built per match by `extract_matches`; every field is
optional because each read uses `.get` with a default. -/
structure MatchRecord where
  away_team : Option Json
  home_team : Option Json
  round : Option Json
  cancelled : Option Json
  finished : Option Json
  date : Option Json
  result : Option Json

/-- One element of the `extract_matches` comprehension (src/main.py:72-80):
`match.get("away", {}).get("name")` and friends. -/
def extract_match (m : Json) : Except String MatchRecord := do
  let away ← pyGetD m "away" (.obj [])
  let awayTeam ← pyGet away "name"
  let home ← pyGetD m "home" (.obj [])
  let homeTeam ← pyGet home "name"
  let rnd ← pyGet m "round"
  let st1 ← pyGetD m "status" (.obj [])
  let cancelled ← pyGet st1 "cancelled"
  let st2 ← pyGetD m "status" (.obj [])
  let finished ← pyGet st2 "finished"
  let st3 ← pyGetD m "status" (.obj [])
  let date ← pyGet st3 "utcTime"
  let st4 ← pyGetD m "status" (.obj [])
  let result ← pyGet st4 "scoreStr"
  return { away_team := awayTeam, home_team := homeTeam, round := rnd,
           cancelled := cancelled, finished := finished, date := date,
           result := result }

/-- The list comprehension of `extract_matches`, element by element in
order; the first raising element aborts the whole comprehension. -/
def extractMatchList : List Json → Except String (List MatchRecord)
  | [] => .ok []
  | m :: ms =>
    match extract_match m with
    | .error e => .error e
    | .ok r =>
      match extractMatchList ms with
      | .error e => .error e
      | .ok rs => .ok (r :: rs)

/-- `extract_matches` (src/main.py:61-82): iterates the match list; a
non-list argument is not iterable in the way the comprehension needs. -/
def extract_matches (matchesJson : Json) : Except String (List MatchRecord) :=
  match matchesJson with
  | .arr ms => extractMatchList ms
  | _ => .error "TypeError: matches is not a list"

/-- One entry of the static league list in `main`. -/
structure League where
  id : Int
  name : String

/-- The static, hardcoded 6-entry league list (src/main.py:98-105). -/
def leagues : List League :=
  [ { id := 87, name := "laliga" },
    { id := 47, name := "premier-league" },
    { id := 54, name := "bundesliga" },
    { id := 55, name := "serie-a" },
    { id := 53, name := "ligue-1" },
    { id := 57, name := "eredivisie" } ]

/-- A row of the combined table: the 7 match fields plus the 4 detail
fields broadcast onto the row by `league_df.assign(**details_dict)`. -/
structure EnrichedRow where
  away_team : Option Json
  home_team : Option Json
  round : Option Json
  cancelled : Option Json
  finished : Option Json
  date : Option Json
  result : Option Json
  country : Json
  name : Json
  selectedSeason : Json
  type : Json

/-- Broadcast of the extracted details onto one match row
(`league_df.assign(**details_dict)`, src/main.py:119). -/
def enrichRow (dd : LeagueDetails) (r : MatchRecord) : EnrichedRow :=
  { away_team := r.away_team, home_team := r.home_team, round := r.round,
    cancelled := r.cancelled, finished := r.finished, date := r.date,
    result := r.result, country := dd.country, name := dd.name,
    selectedSeason := dd.selectedSeason, type := dd.type }

/-- One iteration of the league loop (src/main.py:111-121): fetch, and when
both results are truthy, extract and broadcast; otherwise contribute no
rows. Uncaught extraction errors propagate. -/
def processLeague (rsp : Int → FetchOutcome) (league_id : Int) :
    Except String (List EnrichedRow) := do
  let pr ← (get_league_fixtures league_id (rsp league_id)).2
  match pr with
  | (some d, some ms) =>
    if d.truthy && ms.truthy then do
      let dd ← extract_details d
      let mm ← extract_matches ms
      return mm.map (enrichRow dd)
    else
      return []
  | _ => return []

/-- The league loop over a given list, concatenating per-league rows in
list order (`pd.concat([final_data, league_df])`, src/main.py:121). -/
def buildCombinedAux (rsp : Int → FetchOutcome) :
    List League → Except String (List EnrichedRow)
  | [] => .ok []
  | l :: ls =>
    match processLeague rsp l.id with
    | .error e => .error e
    | .ok rows =>
      match buildCombinedAux rsp ls with
      | .error e => .error e
      | .ok rest => .ok (rows ++ rest)

/-- The combined table after the whole league loop. -/
def buildCombined (rsp : Int → FetchOutcome) : Except String (List EnrichedRow) :=
  buildCombinedAux rsp leagues

/-- The fixed country-code lookup (src/main.py:124-131). -/
def country_map : List (String × String) :=
  [ ("ESP", "Spain"), ("ENG", "England"), ("GER", "Germany"),
    ("ITA", "Italy"), ("FRA", "France"), ("NED", "Netherlands") ]

/-- `final_data["country"].map(country_map)` on one cell: a string found in
the lookup becomes its display name; anything else becomes NaN (absent). -/
def mapCountry (c : Json) : Option String :=
  match c with
  | .str s => country_map.lookup s
  | _ => none

/-- Splitting a character list on a literal separator, with fuel for
termination; emits the accumulated chunk whenever the separator occurs. -/
def splitCharsFuel (sep : List Char) : Nat → List Char → List Char → List (List Char)
  | 0, l, acc => [acc.reverse ++ l]
  | fuel + 1, l, acc =>
    match l with
    | [] => [acc.reverse]
    | c :: rest =>
      if sep.isPrefixOf l then
        acc.reverse :: splitCharsFuel sep fuel (l.drop sep.length) []
      else
        splitCharsFuel sep fuel rest (c :: acc)

/-- Python `s.split(sep)` for a non-empty literal separator, as used by
pandas `.str.split(" - ")`. -/
def pySplit (s sep : String) : List String :=
  (splitCharsFuel sep.data (s.data.length + 1) s.data []).map String.mk

/-- `.str.split(" - ")` on one cell: a string cell splits, any non-string
cell (NaN included) yields NaN. -/
def splitParts (r : Option Json) : Option (List String) :=
  match r with
  | some (.str s) => some (pySplit s " - ")
  | _ => none

/-- Width a cell contributes to the `expand=True` DataFrame: the number of
split parts for a string cell, a single NaN column for a non-string cell. -/
def rowWidth (r : Option Json) : Nat :=
  match splitParts r with
  | some parts => parts.length
  | none => 1

/-- One row of the expanded split assigned to the two score columns:
part 0 and part 1, absent when missing. -/
def splitRow (r : Option Json) : Option String × Option String :=
  match splitParts r with
  | some parts => (parts[0]?, parts[1]?)
  | none => (none, none)

/-- `final_data[["home_score", "away_score"]] = final_data["result"].str.split(" - ", expand=True)`
(src/main.py:135-137): the expanded frame must have exactly two columns
(its column count is the maximum row width), else the assignment raises. -/
def splitScores (results : List (Option Json)) :
    Except String (List (Option String × Option String)) :=
  if (results.map rowWidth).foldr max 0 = 2 then
    .ok (results.map splitRow)
  else
    .error "ValueError: Columns must be same length as key"

/-- A row of the final exported table: country mapped to a display name,
`result` replaced by the two score columns (src/main.py:138 drops it). -/
structure FinalRow where
  away_team : Option Json
  home_team : Option Json
  round : Option Json
  cancelled : Option Json
  finished : Option Json
  date : Option Json
  country : Option String
  name : Json
  selectedSeason : Json
  type : Json
  home_score : Option String
  away_score : Option String

/-- Post-processing applied to one row, given its split scores. -/
def finalizeRow (r : EnrichedRow) (sc : Option String × Option String) : FinalRow :=
  { away_team := r.away_team, home_team := r.home_team, round := r.round,
    cancelled := r.cancelled, finished := r.finished, date := r.date,
    country := mapCountry r.country, name := r.name,
    selectedSeason := r.selectedSeason, type := r.type,
    home_score := sc.1, away_score := sc.2 }

/-- The post-processing block (src/main.py:123-138). When no league
contributed, `final_data` is the initial `pd.DataFrame()` with no columns
and `final_data["country"]` raises `KeyError`. -/
def postprocess (rows : List EnrichedRow) : Except String (List FinalRow) :=
  if rows.isEmpty then
    .error "KeyError: country"
  else
    match splitScores (rows.map (fun r => r.result)) with
    | .error e => .error e
    | .ok scores => .ok (List.zipWith finalizeRow rows scores)

/-- `main` (src/main.py:96-140): the league loop followed by
post-processing, returning the final table. -/
def main (rsp : Int → FetchOutcome) : Except String (List FinalRow) :=
  match buildCombined rsp with
  | .error e => .error e
  | .ok combined => postprocess combined

/-- Whether a calendar year is a leap year (Gregorian). -/
def isLeapYear (y : Nat) : Bool :=
  (y % 4 == 0 && y % 100 != 0) || y % 400 == 0

/-- Days in the months before month `m` of a year with the given leap flag. -/
def cumulativeMonthDays (leap : Bool) (m : Nat) : Nat :=
  [0, 31, 59, 90, 120, 151, 181, 212, 243, 273, 304, 334].getD (m - 1) 0
    + (if leap && 2 < m then 1 else 0)

/-- Day number of a Gregorian calendar date (days since 0001-01-01). -/
def dayNumber (y m d : Nat) : Nat :=
  365 * (y - 1) + (y - 1) / 4 - (y - 1) / 100 + (y - 1) / 400
    + cumulativeMonthDays (isLeapYear y) m + (d - 1)

/-- Timestamp of an hour boundary, counted in hours. -/
def hourStamp (y m d h : Nat) : Nat :=
  24 * dayNumber y m d + h

/-- `pd.date_range(start, end, freq="H")` for hour-boundary endpoints:
every hourly timestamp from `s` to `e` inclusive. -/
def date_range_hourly (s e : Nat) : List Nat :=
  (List.range (e - s + 1)).map (fun k => s + k)

/-- `generate_date_hours` (src/main.py:85-93): hourly timestamps from
2023-01-01 00:00 to 2024-12-31 00:00 (both date strings normalize to
midnight, and the end boundary lies on the hourly grid, so it is included). -/
def generate_date_hours : List Nat :=
  date_range_hourly (hourStamp 2023 1 1 0) (hourStamp 2024 12 31 0)

/-- The `__main__` block (src/main.py:143-148): runs `main`, generates the
date-hour table, and only then writes the two files; an error escaping
`main` means neither output is produced. -/
def runScript (rsp : Int → FetchOutcome) :
    Except String (List FinalRow × List Nat) :=
  match main rsp with
  | .error e => .error e
  | .ok matches_df => .ok (matches_df, generate_date_hours)

/-- The value under a key is either absent or a dict: exactly the shapes on
which a chained `.get(k, {}).get(k2)` read cannot raise. -/
def objOrAbsent : Option Json → Bool
  | none => true
  | some (.obj _) => true
  | _ => false

/-- A match object on which every `.get` chain of `extract_matches` is
defined: a dict whose `away`, `home` and `status` values, when present,
are dicts themselves. -/
def wellShapedMatch : Json → Bool
  | .obj fs =>
    objOrAbsent (fs.lookup "away") && objOrAbsent (fs.lookup "home")
      && objOrAbsent (fs.lookup "status")
  | _ => false

/-- The value of `fs[k1].get(k2)` style nested reads: the inner lookup when
the outer key holds a dict, absent otherwise. -/
def nestedLookup (fs : List (String × Json)) (k1 k2 : String) : Option Json :=
  match fs.lookup k1 with
  | some (.obj g) => g.lookup k2
  | _ => none

/-! Concrete sample data used to exercise the theorems below. -/

def sampleDetailsFields : List (String × Json) :=
  [("country", .str "ESP"), ("name", .str "LaLiga"),
   ("selectedSeason", .str "2023/2024"), ("type", .str "league")]

def sampleDetails : Json := .obj sampleDetailsFields

def sampleLeagueDetails : LeagueDetails :=
  { country := .str "ESP", name := .str "LaLiga",
    selectedSeason := .str "2023/2024", type := .str "league" }

def sampleMatchFields : List (String × Json) :=
  [("away", .obj [("name", .str "Real Madrid")]),
   ("home", .obj [("name", .str "Barcelona")]),
   ("round", .num 1),
   ("status", .obj [("cancelled", .bool false), ("finished", .bool true),
                    ("utcTime", .str "2023-08-12T19:00:00Z"),
                    ("scoreStr", .str "2 - 1")])]

def sampleMatch : Json := .obj sampleMatchFields

def sampleMatchRecord : MatchRecord :=
  { away_team := some (.str "Real Madrid"), home_team := some (.str "Barcelona"),
    round := some (.num 1), cancelled := some (.bool false),
    finished := some (.bool true), date := some (.str "2023-08-12T19:00:00Z"),
    result := some (.str "2 - 1") }

def sampleMatches : Json := .arr [sampleMatch]

def sampleBody : Json :=
  .obj [("details", sampleDetails), ("matches", .obj [("allMatches", sampleMatches)])]

/-- A network oracle on which every league's fetch succeeds with the same
sample body. -/
def sampleRsp : Int → FetchOutcome := fun _ => .success sampleBody

/-- A network oracle on which every fetch fails with a transport error. -/
def failRsp : Int → FetchOutcome := fun _ => .transportError "connection refused"

def sampleRow : EnrichedRow := enrichRow sampleLeagueDetails sampleMatchRecord

def sampleRows : List EnrichedRow := [sampleRow]

def sampleCombined : List EnrichedRow :=
  [sampleRow, sampleRow, sampleRow, sampleRow, sampleRow, sampleRow]

/-- A row whose result is absent and whose country code is unmapped. -/
def noScoreRow : EnrichedRow :=
  { sampleRow with result := none, country := .str "XYZ" }

def sampleFinalRow : FinalRow := finalizeRow sampleRow (some "2", some "1")

def noScoreFinalRow : FinalRow := finalizeRow noScoreRow (none, none)

/-- A match whose status dict lacks `scoreStr`: its extracted result is
absent. -/
def gapMatchFields : List (String × Json) :=
  [("away", .obj [("name", .str "Real Madrid")]),
   ("home", .obj [("name", .str "Barcelona")]),
   ("round", .num 1),
   ("status", .obj [("cancelled", .bool false), ("finished", .bool false),
                    ("utcTime", .str "2023-08-12T19:00:00Z")])]

def gapBody : Json :=
  .obj [("details", sampleDetails),
        ("matches", .obj [("allMatches", .arr [.obj gapMatchFields])])]

/-- A network oracle on which every league succeeds but no match carries a
score string, so every result cell of the combined table is absent. -/
def gapRsp : Int → FetchOutcome := fun _ => .success gapBody

/-! Reduction lemmas for the `Except` monad used by the embedding. -/

theorem ok_bind {α β : Type} (a : α) (f : α → Except String β) :
    (Except.ok a >>= f : Except String β) = f a := rfl

theorem error_bind {α β : Type} (e : String) (f : α → Except String β) :
    (Except.error e >>= f : Except String β) = .error e := rfl

theorem pure_eq_ok {α : Type} (a : α) : (pure a : Except String α) = .ok a := rfl

/-- Shapes allowed by `objOrAbsent`. -/
theorem objOrAbsent_cases {o : Option Json} (h : objOrAbsent o = true) :
    o = none ∨ ∃ g, o = some (.obj g) := by
  match o with
  | none => exact Or.inl rfl
  | some (.obj g) => exact Or.inr ⟨g, rfl⟩
  | some .null | some (.bool _) | some (.num _) | some (.str _) | some (.arr _) =>
    simp [objOrAbsent] at h

/-- On a well-shaped match dict, `extract_match` succeeds and each field is
exactly its own nested lookup. -/
theorem extract_match_obj (fs : List (String × Json))
    (ha : objOrAbsent (fs.lookup "away") = true)
    (hh : objOrAbsent (fs.lookup "home") = true)
    (hs : objOrAbsent (fs.lookup "status") = true) :
    extract_match (.obj fs) = .ok
      { away_team := nestedLookup fs "away" "name",
        home_team := nestedLookup fs "home" "name",
        round := fs.lookup "round",
        cancelled := nestedLookup fs "status" "cancelled",
        finished := nestedLookup fs "status" "finished",
        date := nestedLookup fs "status" "utcTime",
        result := nestedLookup fs "status" "scoreStr" } := by
  rcases objOrAbsent_cases ha with hA | ⟨gA, hA⟩ <;>
    rcases objOrAbsent_cases hh with hH | ⟨gH, hH⟩ <;>
      rcases objOrAbsent_cases hs with hS | ⟨gS, hS⟩ <;>
        simp only [extract_match, pyGet, pyGetD, nestedLookup, hA, hH, hS,
          Option.getD_some, Option.getD_none, ok_bind, error_bind, pure_eq_ok,
          List.lookup_nil]

/-- A successful comprehension has one record per element, in order, each
obtained by `extract_match` on its own element. -/
theorem extractMatchList_ok : ∀ (ms : List Json) (rs : List MatchRecord),
    extractMatchList ms = .ok rs →
    rs.length = ms.length ∧
      ∀ (i : Nat) (m : Json), ms[i]? = some m →
        ∃ r, rs[i]? = some r ∧ extract_match m = .ok r := by
  intro ms
  induction ms with
  | nil =>
    intro rs h
    simp only [extractMatchList] at h
    cases h
    refine ⟨rfl, ?_⟩
    intro i m hm
    simp at hm
  | cons m ms ih =>
    intro rs h
    simp only [extractMatchList] at h
    rcases hm : extract_match m with e | r
    · rw [hm] at h; simp at h
    · rw [hm] at h
      rcases hrec : extractMatchList ms with e2 | rs2
      · rw [hrec] at h; simp at h
      · rw [hrec] at h
        simp only [] at h
        cases h
        obtain ⟨ihl, ihp⟩ := ih rs2 hrec
        refine ⟨by simp [ihl], ?_⟩
        intro i mi hmi
        match i with
        | 0 =>
          simp only [List.getElem?_cons_zero, Option.some.injEq] at hmi
          subst hmi
          exact ⟨r, by simp, hm⟩
        | i + 1 =>
          simp only [List.getElem?_cons_succ] at hmi ⊢
          exact ihp i mi hmi

/-- A successful `extract_matches` means the argument was a list and the
comprehension succeeded on it. -/
theorem extract_matches_ok_shape (ms : Json) (mm : List MatchRecord)
    (h : extract_matches ms = .ok mm) :
    ∃ l, ms = .arr l ∧ extractMatchList l = .ok mm := by
  cases ms with
  | arr l => exact ⟨l, rfl, h⟩
  | null => simp [extract_matches] at h
  | bool b => simp [extract_matches] at h
  | num n => simp [extract_matches] at h
  | str s => simp [extract_matches] at h
  | obj fs => simp [extract_matches] at h

/-- The success path of one league-loop iteration: both fetched parts
truthy and both extractions succeeding yield the broadcast rows. -/
theorem processLeague_success_eq (rsp : Int → FetchOutcome) (lid : Int)
    (d ms : Json) (dd : LeagueDetails) (mm : List MatchRecord)
    (hf : (get_league_fixtures lid (rsp lid)).2 = .ok (some d, some ms))
    (hd : d.truthy = true) (hm : ms.truthy = true)
    (hdd : extract_details d = .ok dd)
    (hmm : extract_matches ms = .ok mm) :
    processLeague rsp lid = .ok (mm.map (enrichRow dd)) := by
  simp only [processLeague, hf, ok_bind, hd, hm, Bool.and_self, if_true,
    hdd, hmm, pure_eq_ok]

/-- The skip path of one league-loop iteration: when either fetched part is
falsy, the league contributes no rows. -/
theorem processLeague_skip (rsp : Int → FetchOutcome) (lid : Int)
    (dOpt mOpt : Option Json)
    (hf : (get_league_fixtures lid (rsp lid)).2 = .ok (dOpt, mOpt))
    (hnot : ¬(optTruthy dOpt = true ∧ optTruthy mOpt = true)) :
    processLeague rsp lid = .ok [] := by
  simp only [processLeague, hf, ok_bind]
  rcases dOpt with _ | d <;> rcases mOpt with _ | ms
  · rfl
  · rfl
  · rfl
  · have hcond : (d.truthy && ms.truthy) = false := by
      cases hdt : d.truthy <;> cases hmt : ms.truthy <;>
        simp_all [optTruthy]
    simp [hcond, pure_eq_ok]

/-- A successful league loop decomposes into one row block per league, in
league-list order, with the combined table their concatenation. -/
theorem buildCombinedAux_ok (rsp : Int → FetchOutcome) :
    ∀ (ls : List League) (rows : List EnrichedRow),
    buildCombinedAux rsp ls = .ok rows →
    ∃ per : List (List EnrichedRow), per.length = ls.length ∧
      (∀ (i : Nat) (l : League), ls[i]? = some l →
        ∃ rl, per[i]? = some rl ∧ processLeague rsp l.id = .ok rl) ∧
      rows = per.flatten := by
  intro ls
  induction ls with
  | nil =>
    intro rows h
    simp only [buildCombinedAux] at h
    cases h
    refine ⟨[], rfl, ?_, rfl⟩
    intro i l hl
    simp at hl
  | cons l ls ih =>
    intro rows h
    simp only [buildCombinedAux] at h
    rcases hl : processLeague rsp l.id with e | r0
    · rw [hl] at h; simp at h
    · rw [hl] at h
      rcases hrec : buildCombinedAux rsp ls with e2 | rest
      · rw [hrec] at h; simp at h
      · rw [hrec] at h
        cases h
        obtain ⟨per, hlen, hp, hjoin⟩ := ih rest hrec
        refine ⟨r0 :: per, by simp [hlen], ?_, by simp [hjoin]⟩
        intro i li hli
        match i with
        | 0 =>
          simp only [List.getElem?_cons_zero, Option.some.injEq] at hli
          subst hli
          exact ⟨r0, by simp, hl⟩
        | i + 1 =>
          simp only [List.getElem?_cons_succ] at hli ⊢
          exact hp i li hli

/-- When every league of the list contributes nothing, the loop yields the
empty table. -/
theorem buildCombinedAux_all_skip (rsp : Int → FetchOutcome) :
    ∀ ls : List League, (∀ l ∈ ls, processLeague rsp l.id = .ok []) →
    buildCombinedAux rsp ls = .ok [] := by
  intro ls
  induction ls with
  | nil => intro _; rfl
  | cons l ls ih =>
    intro h
    have h0 : processLeague rsp l.id = .ok [] := h l (by simp)
    have hrest : buildCombinedAux rsp ls = .ok [] :=
      ih (fun x hx => h x (by simp [hx]))
    simp only [buildCombinedAux, h0, hrest, List.nil_append]

/-- Zipping a list with its own image collapses to a single map. -/
theorem zipWith_map_self {α β γ : Type} (f : α → β → γ) (g : α → β)
    (l : List α) :
    List.zipWith f l (l.map g) = l.map (fun a => f a (g a)) := by
  induction l with
  | nil => rfl
  | cons a l ih => simp [ih]

/-- Shape of a successful post-processing run: each output row is its input
row with the country mapped and the result split. -/
theorem postprocess_ok_shape (rows : List EnrichedRow) (frows : List FinalRow)
    (h : postprocess rows = .ok frows) :
    frows = rows.map (fun r => finalizeRow r (splitRow r.result)) := by
  unfold postprocess splitScores at h
  rcases hEmpty : rows.isEmpty with _ | _
  · simp only [hEmpty, Bool.false_eq_true, if_false] at h
    by_cases hw : ((rows.map (fun r => r.result)).map rowWidth).foldr max 0 = 2
    · rw [if_pos hw] at h
      cases h
      rw [List.map_map, zipWith_map_self]
      simp [Function.comp]
    · rw [if_neg hw] at h
      simp at h
  · simp only [hEmpty, if_true] at h
    simp at h

/-- `date_range_hourly` is strictly increasing. -/
theorem date_range_hourly_pairwise (s e : Nat) :
    List.Pairwise (· < ·) (date_range_hourly s e) := by
  unfold date_range_hourly
  rw [List.pairwise_map]
  exact (List.pairwise_lt_range _).imp (fun h => by omega)

/-- Membership in `date_range_hourly` is exactly the inclusive range. -/
theorem date_range_hourly_mem (s e t : Nat) (hse : s ≤ e) :
    t ∈ date_range_hourly s e ↔ s ≤ t ∧ t ≤ e := by
  unfold date_range_hourly
  simp only [List.mem_map, List.mem_range]
  constructor
  · rintro ⟨k, hk, rfl⟩
    omega
  · rintro ⟨h1, h2⟩
    exact ⟨t - s, by omega, by omega⟩

/-- C3: on a transport-level error or non-2xx status, `get_league_fixtures`
catches the exception, logs one message carrying the league identifier, and
returns `(None, None)` without propagating; a league whose fetch failed
this way contributes zero rows and the loop continues with the remaining
leagues unchanged. -/
theorem get_league_fixtures_error_handled (lid : Int) (e : String) :
    get_league_fixtures lid (.transportError e) = ([fetchErrorMsg lid e], .ok (none, none)) ∧
    (∃ pre post, fetchErrorMsg lid e = pre ++ toString lid ++ post) ∧
    ∀ rsp : Int → FetchOutcome, rsp lid = .transportError e →
      processLeague rsp lid = .ok [] ∧
      ∀ (nm : String) (ls : List League),
        buildCombinedAux rsp ({ id := lid, name := nm } :: ls) = buildCombinedAux rsp ls := by
  refine ⟨rfl, ⟨"An error occurred while fetching data for league ID ", ": " ++ e,
    by simp [fetchErrorMsg, String.append_assoc]⟩, ?_⟩
  intro rsp hr
  have hfetch : (get_league_fixtures lid (rsp lid)).2 = .ok (none, none) := by
    rw [hr]
    rfl
  have hskip : processLeague rsp lid = .ok [] := by
    simp only [processLeague, hfetch, ok_bind, pure_eq_ok]
  refine ⟨hskip, ?_⟩
  intro nm ls
  simp only [buildCombinedAux, hskip]
  rcases hrec : buildCombinedAux rsp ls with e2 | rest
  · rfl
  · simp

/-- Exercises C3 at a concrete league id, error and oracle. -/
theorem get_league_fixtures_error_handled_witness :
    failRsp 87 = FetchOutcome.transportError "connection refused" ∧
    processLeague failRsp 87 = .ok [] := by
  have h := (get_league_fixtures_error_handled 87 "connection refused").2.2 failRsp rfl
  exact ⟨rfl, h.1⟩

/-- C5: the generated date-hour table has exactly one entry per hour
boundary from 2023-01-01T00:00 to 2024-12-31T00:00 inclusive (17521 of
them), strictly increasing, hence without gaps or duplicates. -/
theorem generate_date_hours_hour_grid :
    generate_date_hours.length = 17521 ∧
    List.Pairwise (· < ·) generate_date_hours ∧
    ∀ t, t ∈ generate_date_hours ↔
      hourStamp 2023 1 1 0 ≤ t ∧ t ≤ hourStamp 2024 12 31 0 := by
  refine ⟨?_, date_range_hourly_pairwise _ _,
    fun t => date_range_hourly_mem _ _ t (by decide)⟩
  simp only [generate_date_hours, date_range_hourly, List.length_map,
    List.length_range]
  decide

/-- C6: `extract_details` returns exactly the 4 required fields of the
details dict, and fails (rather than defaulting) whenever any of the four
keys is absent. -/
theorem extract_details_required_keys (fs : List (String × Json)) :
    (∀ c n s t, fs.lookup "country" = some c → fs.lookup "name" = some n →
      fs.lookup "selectedSeason" = some s → fs.lookup "type" = some t →
      extract_details (.obj fs) = .ok
        { country := c, name := n, selectedSeason := s, type := t }) ∧
    ((fs.lookup "country" = none ∨ fs.lookup "name" = none ∨
      fs.lookup "selectedSeason" = none ∨ fs.lookup "type" = none) →
      ∃ e, extract_details (.obj fs) = .error e) := by
  constructor
  · intro c n s t hc hn hs ht
    simp only [extract_details, dictLookup, hc, hn, hs, ht, ok_bind, pure_eq_ok]
  · intro habs
    rcases hc : fs.lookup "country" with _ | c
    · exact ⟨"KeyError: " ++ "country", by simp only [extract_details, dictLookup, hc, error_bind]⟩
    · rcases hn : fs.lookup "name" with _ | n
      · exact ⟨"KeyError: " ++ "name", by simp only [extract_details, dictLookup, hc, hn, ok_bind, error_bind]⟩
      · rcases hs : fs.lookup "selectedSeason" with _ | s
        · exact ⟨"KeyError: " ++ "selectedSeason", by simp only [extract_details, dictLookup, hc, hn, hs, ok_bind, error_bind]⟩
        · rcases ht : fs.lookup "type" with _ | t
          · exact ⟨"KeyError: " ++ "type", by simp only [extract_details, dictLookup, hc, hn, hs, ht, ok_bind, error_bind]⟩
          · simp [hc, hn, hs, ht] at habs

/-- Exercises C6: full sample details extract to the 4-field record, and
dropping the `type` key makes the extraction fail. -/
theorem extract_details_required_keys_witness :
    extract_details (.obj sampleDetailsFields) = .ok sampleLeagueDetails ∧
    ∃ e, extract_details (.obj (sampleDetailsFields.take 3)) = .error e := by
  constructor
  · exact (extract_details_required_keys sampleDetailsFields).1
      (.str "ESP") (.str "LaLiga") (.str "2023/2024") (.str "league") rfl rfl rfl rfl
  · exact (extract_details_required_keys (sampleDetailsFields.take 3)).2
      (by simp [sampleDetailsFields])

/-- C1: every row a successfully fetched league (truthy details and match
list) contributes carries identical values for the 4 league-detail fields,
equal to the fields extracted from that league's details object. -/
theorem processLeague_broadcast_details (rsp : Int → FetchOutcome) (lid : Int)
    (d ms : Json) (dd : LeagueDetails) (rows : List EnrichedRow)
    (hf : (get_league_fixtures lid (rsp lid)).2 = .ok (some d, some ms))
    (hd : d.truthy = true) (hm : ms.truthy = true)
    (hdd : extract_details d = .ok dd)
    (hrows : processLeague rsp lid = .ok rows) :
    ∀ r ∈ rows, r.country = dd.country ∧ r.name = dd.name ∧
      r.selectedSeason = dd.selectedSeason ∧ r.type = dd.type := by
  rcases hmm : extract_matches ms with e | mm
  · have hpl : processLeague rsp lid = .error e := by
      simp only [processLeague, hf, ok_bind, hd, hm, Bool.and_self, if_true,
        hdd, hmm, error_bind]
    rw [hpl] at hrows
    simp at hrows
  · have heq := processLeague_success_eq rsp lid d ms dd mm hf hd hm hdd hmm
    rw [heq] at hrows
    injection hrows with h2
    subst h2
    intro r hr
    rw [List.mem_map] at hr
    obtain ⟨m, hm2, rfl⟩ := hr
    exact ⟨rfl, rfl, rfl, rfl⟩

/-- Exercises C1 on the sample oracle: the one contributed row carries the
sample league details. -/
theorem processLeague_broadcast_details_witness :
    sampleRow.country = sampleLeagueDetails.country ∧
      sampleRow.name = sampleLeagueDetails.name ∧
      sampleRow.selectedSeason = sampleLeagueDetails.selectedSeason ∧
      sampleRow.type = sampleLeagueDetails.type :=
  processLeague_broadcast_details sampleRsp 87 sampleDetails sampleMatches
    sampleLeagueDetails sampleRows rfl rfl rfl rfl rfl sampleRow
    (by simp [sampleRows])

/-- C2: within a run that does not raise, a league contributes rows exactly
when both fetched parts are truthy; otherwise it contributes zero rows — no
placeholder, no error record — and the loop continues with the next league
unchanged. -/
theorem processLeague_contributes_iff (rsp : Int → FetchOutcome) (lid : Int)
    (dOpt mOpt : Option Json) (rows : List EnrichedRow)
    (hf : (get_league_fixtures lid (rsp lid)).2 = .ok (dOpt, mOpt))
    (hrows : processLeague rsp lid = .ok rows) :
    (rows ≠ [] ↔ (optTruthy dOpt = true ∧ optTruthy mOpt = true)) ∧
    (¬(optTruthy dOpt = true ∧ optTruthy mOpt = true) →
      ∀ (nm : String) (ls : List League),
        buildCombinedAux rsp ({ id := lid, name := nm } :: ls) =
          buildCombinedAux rsp ls) := by
  by_cases htr : optTruthy dOpt = true ∧ optTruthy mOpt = true
  · obtain ⟨h1, h2⟩ := htr
    rcases dOpt with _ | d
    · simp [optTruthy] at h1
    rcases mOpt with _ | ms
    · simp [optTruthy] at h2
    have hd : d.truthy = true := h1
    have hm : ms.truthy = true := h2
    rcases hdd : extract_details d with e | dd
    · have hpl : processLeague rsp lid = .error e := by
        simp only [processLeague, hf, ok_bind, hd, hm, Bool.and_self, if_true,
          hdd, error_bind]
      rw [hpl] at hrows
      simp at hrows
    rcases hmm : extract_matches ms with e | mm
    · have hpl : processLeague rsp lid = .error e := by
        simp only [processLeague, hf, ok_bind, hd, hm, Bool.and_self, if_true,
          hdd, hmm, ok_bind, error_bind]
      rw [hpl] at hrows
      simp at hrows
    have heq := processLeague_success_eq rsp lid d ms dd mm hf hd hm hdd hmm
    rw [heq] at hrows
    injection hrows with h3
    subst h3
    refine ⟨iff_of_true ?_ ⟨h1, h2⟩, fun hc => absurd ⟨h1, h2⟩ hc⟩
    obtain ⟨l, hms, hel⟩ := extract_matches_ok_shape ms mm hmm
    subst hms
    have hmml := (extractMatchList_ok l mm hel).1
    have hlne : l ≠ [] := by
      intro hnil
      subst hnil
      simp [Json.truthy] at hm
    cases mm with
    | nil =>
      cases l with
      | nil => exact absurd rfl hlne
      | cons a as => simp at hmml
    | cons m0 mm2 => simp
  · have hskip := processLeague_skip rsp lid dOpt mOpt hf htr
    rw [hskip] at hrows
    injection hrows with h3
    subst h3
    refine ⟨iff_of_false (fun hne => absurd rfl hne) htr, ?_⟩
    intro _ nm ls
    simp only [buildCombinedAux, hskip]
    rcases hrec : buildCombinedAux rsp ls with e2 | rest
    · rfl
    · simp

/-- Exercises C2 on the sample oracle: truthy details and matches, one
contributed row. -/
theorem processLeague_contributes_iff_witness :
    (sampleRows ≠ [] ↔
      (optTruthy (some sampleDetails) = true ∧ optTruthy (some sampleMatches) = true)) ∧
    (¬(optTruthy (some sampleDetails) = true ∧ optTruthy (some sampleMatches) = true) →
      ∀ (nm : String) (ls : List League),
        buildCombinedAux sampleRsp ({ id := 87, name := nm } :: ls) =
          buildCombinedAux sampleRsp ls) :=
  processLeague_contributes_iff sampleRsp 87 (some sampleDetails)
    (some sampleMatches) sampleRows rfl rfl

/-- A well-shaped match dict extracts to the record of its own nested
lookups. -/
theorem wellShaped_extract (m : Json) (hw : wellShapedMatch m = true) :
    ∃ fs, m = .obj fs ∧ extract_match m = .ok
      { away_team := nestedLookup fs "away" "name",
        home_team := nestedLookup fs "home" "name",
        round := fs.lookup "round",
        cancelled := nestedLookup fs "status" "cancelled",
        finished := nestedLookup fs "status" "finished",
        date := nestedLookup fs "status" "utcTime",
        result := nestedLookup fs "status" "scoreStr" } := by
  cases m with
  | obj fs =>
    simp only [wellShapedMatch, Bool.and_eq_true] at hw
    obtain ⟨⟨ha, hh⟩, hs⟩ := hw
    exact ⟨fs, rfl, extract_match_obj fs ha hh hs⟩
  | null => simp [wellShapedMatch] at hw
  | bool b => simp [wellShapedMatch] at hw
  | num n => simp [wellShapedMatch] at hw
  | str s => simp [wellShapedMatch] at hw
  | arr l => simp [wellShapedMatch] at hw

/-- On a list of well-shaped matches the whole comprehension succeeds. -/
theorem extractMatchList_total (ms : List Json)
    (h : ∀ m ∈ ms, wellShapedMatch m = true) :
    ∃ rs, extractMatchList ms = .ok rs := by
  induction ms with
  | nil => exact ⟨[], rfl⟩
  | cons m ms ih =>
    obtain ⟨fs, hm, hok⟩ := wellShaped_extract m (h m (by simp))
    obtain ⟨rs, hrs⟩ := ih (fun x hx => h x (by simp [hx]))
    rcases hE : extractMatchList (m :: ms) with e | rs2
    · simp only [extractMatchList, hok, hrs] at hE
      simp at hE
    · exact ⟨rs2, rfl⟩

/-- C7: on any list of match dicts, `extract_matches` returns one record
per element in the same order, each field being exactly that element's own
safe nested lookup — so a missing nested key yields an absent value for its
field only, without affecting other fields or other matches, and without
raising. -/
theorem extract_matches_per_element (ms : List Json)
    (h : ∀ m ∈ ms, wellShapedMatch m = true) :
    ∃ rs, extract_matches (.arr ms) = .ok rs ∧ rs.length = ms.length ∧
      ∀ (i : Nat) (m : Json), ms[i]? = some m →
        ∃ fs r, m = .obj fs ∧ rs[i]? = some r ∧
          r.away_team = nestedLookup fs "away" "name" ∧
          r.home_team = nestedLookup fs "home" "name" ∧
          r.round = fs.lookup "round" ∧
          r.cancelled = nestedLookup fs "status" "cancelled" ∧
          r.finished = nestedLookup fs "status" "finished" ∧
          r.date = nestedLookup fs "status" "utcTime" ∧
          r.result = nestedLookup fs "status" "scoreStr" := by
  obtain ⟨rs, hrs⟩ := extractMatchList_total ms h
  obtain ⟨hlen, hp⟩ := extractMatchList_ok ms rs hrs
  refine ⟨rs, hrs, hlen, ?_⟩
  intro i m hmi
  obtain ⟨r, hri, hrm⟩ := hp i m hmi
  have hwm : wellShapedMatch m = true := h m (List.getElem?_mem hmi)
  obtain ⟨fs, rfl, hok⟩ := wellShaped_extract m hwm
  rw [hrm] at hok
  injection hok with h2
  subst h2
  exact ⟨fs, _, rfl, hri, rfl, rfl, rfl, rfl, rfl, rfl, rfl⟩

/-- Exercises C7 on a full sample match together with an entirely empty
match dict: the empty dict yields a record of absent fields. -/
theorem extract_matches_per_element_witness :
    ∃ rs, extract_matches (.arr [sampleMatch, .obj []]) = .ok rs ∧
      rs.length = [sampleMatch, Json.obj []].length ∧
      ∀ (i : Nat) (m : Json), [sampleMatch, Json.obj []][i]? = some m →
        ∃ fs r, m = .obj fs ∧ rs[i]? = some r ∧
          r.away_team = nestedLookup fs "away" "name" ∧
          r.home_team = nestedLookup fs "home" "name" ∧
          r.round = fs.lookup "round" ∧
          r.cancelled = nestedLookup fs "status" "cancelled" ∧
          r.finished = nestedLookup fs "status" "finished" ∧
          r.date = nestedLookup fs "status" "utcTime" ∧
          r.result = nestedLookup fs "status" "scoreStr" := by
  refine extract_matches_per_element [sampleMatch, .obj []] ?_
  intro m hm
  simp only [List.mem_cons, List.not_mem_nil, or_false] at hm
  rcases hm with rfl | rfl
  · rfl
  · rfl

/-- C9: the combined table is the ordered concatenation of per-league row
blocks — one block per entry of the static 6-entry league list, in list
order — and a successful league's block is its extracted match records in
their original order, each enriched with the league details. -/
theorem buildCombined_concat_in_order (rsp : Int → FetchOutcome)
    (rows : List EnrichedRow) (h : buildCombined rsp = .ok rows) :
    leagues.length = 6 ∧
    (∃ per : List (List EnrichedRow), per.length = leagues.length ∧
      (∀ (i : Nat) (l : League), leagues[i]? = some l →
        ∃ rl, per[i]? = some rl ∧ processLeague rsp l.id = .ok rl) ∧
      rows = per.flatten) ∧
    (∀ (lid : Int) (d ms : Json) (dd : LeagueDetails) (mm : List MatchRecord),
      (get_league_fixtures lid (rsp lid)).2 = .ok (some d, some ms) →
      d.truthy = true → ms.truthy = true →
      extract_details d = .ok dd → extract_matches ms = .ok mm →
      processLeague rsp lid = .ok (mm.map (enrichRow dd))) := by
  refine ⟨rfl, buildCombinedAux_ok rsp leagues rows h, ?_⟩
  intro lid d ms dd mm hf hd hm hdd hmm
  exact processLeague_success_eq rsp lid d ms dd mm hf hd hm hdd hmm

/-- Exercises C9 on the sample oracle, where all six leagues succeed with
one match each. -/
theorem buildCombined_concat_in_order_witness :
    leagues.length = 6 ∧
    (∃ per : List (List EnrichedRow), per.length = leagues.length ∧
      (∀ (i : Nat) (l : League), leagues[i]? = some l →
        ∃ rl, per[i]? = some rl ∧ processLeague sampleRsp l.id = .ok rl) ∧
      sampleCombined = per.flatten) ∧
    (∀ (lid : Int) (d ms : Json) (dd : LeagueDetails) (mm : List MatchRecord),
      (get_league_fixtures lid (sampleRsp lid)).2 = .ok (some d, some ms) →
      d.truthy = true → ms.truthy = true →
      extract_details d = .ok dd → extract_matches ms = .ok mm →
      processLeague sampleRsp lid = .ok (mm.map (enrichRow dd))) :=
  buildCombined_concat_in_order sampleRsp sampleCombined rfl

/-- C4, counterexample to the original claim: a row with an absent result
does not always pass through without error — on a table whose every result
is absent, the `expand=True` split yields a single column and the
two-column assignment raises `ValueError`; reachable through `main` with an
oracle on whose body no match carries `scoreStr`. -/
theorem postprocess_score_split_counterexample :
    noScoreRow.result = none ∧
    postprocess [noScoreRow] = .error "ValueError: Columns must be same length as key" ∧
    main gapRsp = .error "ValueError: Columns must be same length as key" :=
  ⟨rfl, rfl, rfl⟩

/-- C4 (amended): in a post-processing run that completes — the expanded
split having exactly two columns — a row whose result string splits on
" - " into exactly two parts gets them as `home_score` and `away_score`,
and a row with an absent result gets both scores absent; the original
result field is no longer part of the final row shape. -/
theorem postprocess_score_split (rows : List EnrichedRow) (frows : List FinalRow)
    (i : Nat) (r : EnrichedRow) (fr : FinalRow)
    (hp : postprocess rows = .ok frows)
    (hr : rows[i]? = some r) (hf : frows[i]? = some fr) :
    (∀ s hS aS, r.result = some (Json.str s) → pySplit s " - " = [hS, aS] →
      fr.home_score = some hS ∧ fr.away_score = some aS) ∧
    (r.result = none → fr.home_score = none ∧ fr.away_score = none) := by
  have hshape := postprocess_ok_shape rows frows hp
  subst hshape
  rw [List.getElem?_map, hr] at hf
  simp only [Option.map_some'] at hf
  injection hf with hfr
  subst hfr
  constructor
  · intro s hS aS hres hsplit
    constructor
    · simp [finalizeRow, splitRow, splitParts, hres, hsplit]
    · simp [finalizeRow, splitRow, splitParts, hres, hsplit]
  · intro hres
    constructor
    · simp [finalizeRow, splitRow, splitParts, hres]
    · simp [finalizeRow, splitRow, splitParts, hres]

/-- Exercises C4 on a table with one "2 - 1" row and one absent-result
row. -/
theorem postprocess_score_split_witness :
    (sampleFinalRow.home_score = some "2" ∧ sampleFinalRow.away_score = some "1") ∧
    (noScoreFinalRow.home_score = none ∧ noScoreFinalRow.away_score = none) := by
  refine ⟨?_, ?_⟩
  · exact (postprocess_score_split [sampleRow, noScoreRow]
      [sampleFinalRow, noScoreFinalRow] 0 sampleRow sampleFinalRow rfl rfl rfl).1
      "2 - 1" "2" "1" rfl (by decide)
  · exact (postprocess_score_split [sampleRow, noScoreRow]
      [sampleFinalRow, noScoreFinalRow] 1 noScoreRow noScoreFinalRow rfl rfl rfl).2 rfl

/-- C8: in a completed post-processing run, each row's country is mapped
through the fixed 6-entry lookup — "ESP" becomes "Spain", an unmapped code
such as "XYZ" becomes absent without raising — and every other surviving
field of the row is unchanged. -/
theorem postprocess_country_mapping (rows : List EnrichedRow) (frows : List FinalRow)
    (i : Nat) (r : EnrichedRow) (fr : FinalRow)
    (hp : postprocess rows = .ok frows)
    (hr : rows[i]? = some r) (hf : frows[i]? = some fr) :
    (∀ c : String, r.country = .str c → fr.country = country_map.lookup c) ∧
    (r.country = .str "ESP" → fr.country = some "Spain") ∧
    (r.country = .str "XYZ" → fr.country = none) ∧
    fr.away_team = r.away_team ∧ fr.home_team = r.home_team ∧
    fr.round = r.round ∧ fr.cancelled = r.cancelled ∧
    fr.finished = r.finished ∧ fr.date = r.date ∧ fr.name = r.name ∧
    fr.selectedSeason = r.selectedSeason ∧ fr.type = r.type := by
  have hshape := postprocess_ok_shape rows frows hp
  subst hshape
  rw [List.getElem?_map, hr] at hf
  simp only [Option.map_some'] at hf
  injection hf with hfr
  subst hfr
  refine ⟨?_, ?_, ?_, rfl, rfl, rfl, rfl, rfl, rfl, rfl, rfl, rfl⟩
  · intro c hc
    simp [finalizeRow, mapCountry, hc]
  · intro hc
    simp [finalizeRow, mapCountry, hc, country_map]
  · intro hc
    simp [finalizeRow, mapCountry, hc, country_map]

/-- Exercises C8 on a mapped ("ESP") and an unmapped ("XYZ") country row,
checking one frame field as well. -/
theorem postprocess_country_mapping_witness :
    sampleFinalRow.country = some "Spain" ∧ noScoreFinalRow.country = none ∧
    noScoreFinalRow.away_team = noScoreRow.away_team := by
  have h0 := postprocess_country_mapping [sampleRow, noScoreRow]
    [sampleFinalRow, noScoreFinalRow] 0 sampleRow sampleFinalRow rfl rfl rfl
  have h1 := postprocess_country_mapping [sampleRow, noScoreRow]
    [sampleFinalRow, noScoreFinalRow] 1 noScoreRow noScoreFinalRow rfl rfl rfl
  exact ⟨h0.2.1 rfl, h1.2.2.1 rfl, h1.2.2.2.1⟩

/-- C10: when every league is skipped (for instance every fetch fails with
a transport error), the combined table is empty, the post-processing access
to the country column raises, `main` propagates the error, and the script
terminates without producing any output. -/
theorem empty_combined_aborts_run (rsp : Int → FetchOutcome)
    (h : ∀ l ∈ leagues, ∃ e, rsp l.id = FetchOutcome.transportError e) :
    buildCombined rsp = .ok [] ∧
    postprocess [] = .error "KeyError: country" ∧
    main rsp = .error "KeyError: country" ∧
    runScript rsp = .error "KeyError: country" := by
  have hskip : ∀ l ∈ leagues, processLeague rsp l.id = .ok [] := by
    intro l hl
    obtain ⟨e, he⟩ := h l hl
    have hfetch : (get_league_fixtures l.id (rsp l.id)).2 = .ok (none, none) := by
      rw [he]
      rfl
    simp only [processLeague, hfetch, ok_bind, pure_eq_ok]
  have hbc : buildCombined rsp = .ok [] := buildCombinedAux_all_skip rsp leagues hskip
  have hmain : main rsp = .error "KeyError: country" := by
    simp only [main, hbc]
    rfl
  refine ⟨hbc, rfl, hmain, ?_⟩
  simp only [runScript, hmain]

/-- Exercises C10 on the all-failing oracle. -/
theorem empty_combined_aborts_run_witness :
    (∀ l ∈ leagues, ∃ e, failRsp l.id = FetchOutcome.transportError e) ∧
    (buildCombined failRsp = .ok [] ∧
      postprocess [] = .error "KeyError: country" ∧
      main failRsp = .error "KeyError: country" ∧
      runScript failRsp = .error "KeyError: country") := by
  have hh : ∀ l ∈ leagues, ∃ e, failRsp l.id = FetchOutcome.transportError e :=
    fun l _ => ⟨"connection refused", rfl⟩
  exact ⟨hh, empty_combined_aborts_run failRsp hh⟩

end Fixtures
